import Mathlib

/-!
Verification of the safety-rules serialization boundary of the Dijets
consensus engine (src/consensus/safety-rules/src/serializer.rs), over a
shallow embedding.  The serializing service, the client proxy and the
in-process transport are translated from the source file; the safety-rules
engine itself (the `SafetyRules` type behind `self.internal`) is not part
of the provided sources, so its operations are modelled from the spec, as
marked on each such definition.  Bytes are `Nat` values below 256; machine
integers (Rust `u64`) are `Nat` with explicit bounds `< 2 ^ 64` where the
wire encoding depends on the width.
-/

namespace Dijets

/-! ## Byte-level primitives of the BCS wire encoding

BCS encodes a `u64` as exactly eight little-endian bytes, an enum variant
as its ULEB128-encoded index (one byte for indexes below 128), `bool` as a
single byte 0 or 1, and `Option` as a 0/1 byte optionally followed by the
payload.  `bcs::from_bytes` fails unless the whole input is consumed. -/

/-- Little-endian base-256 encoding of `n` into exactly `k` bytes. -/
def encodeUnsigned : Nat → Nat → List Nat
  | 0, _ => []
  | k + 1, n => n % 256 :: encodeUnsigned k (n / 256)

/-- Little-endian base-256 decoding of exactly `k` bytes, returning the
value and the unconsumed remainder. -/
def decodeUnsigned : Nat → List Nat → Option (Nat × List Nat)
  | 0, bs => some (0, bs)
  | _ + 1, [] => none
  | k + 1, b :: bs =>
    match decodeUnsigned k bs with
    | some (m, rest) => some (b + 256 * m, rest)
    | none => none

/-- A `u64` is encoded as eight little-endian bytes. -/
def encodeU64 (n : Nat) : List Nat := encodeUnsigned 8 n

/-- Decode a `u64` from the first eight bytes. -/
def decodeU64 (bs : List Nat) : Option (Nat × List Nat) := decodeUnsigned 8 bs

/-- BCS encoding of a boolean: one byte, 0 or 1. -/
def encodeBool (b : Bool) : List Nat := [if b then 1 else 0]

/-- BCS decoding of a boolean; any byte other than 0 or 1 is rejected. -/
def decodeBool : List Nat → Option (Bool × List Nat)
  | 0 :: bs => some (false, bs)
  | 1 :: bs => some (true, bs)
  | _ => none

/-! ## Data model

The payload types live in the `consensus-types` and `dijets-types` crates,
which are not among the provided sources; they are modelled from the spec
(section 3) with exactly the fields the safety rules consult: epochs,
rounds, versions, block identity and validator identity, all Rust `u64`
values embedded as `Nat`. -/

/-- Modelled from the spec: an epoch-change proof carries the target epoch
it proves, whether its signature chain verifies (cryptographic checking is
abstracted to a boolean), and the membership of this validator in the new
validator set that the engine adopts on success. -/
structure EpochChangeProof where
  target_epoch : Nat
  valid : Bool
  in_validator_set : Bool
  deriving DecidableEq

/-- Modelled from the spec: a vote proposal is a block plus its justifying
quorum certificate; the engine consults the proposal epoch, the proposal
round, the round of the embedded QC and the block identity. -/
structure MaybeSignedVoteProposal where
  epoch : Nat
  round : Nat
  qc_round : Nat
  block_id : Nat
  deriving DecidableEq

/-- Modelled from the spec: a signed vote names the epoch, the round and
the block it votes for. -/
structure Vote where
  epoch : Nat
  round : Nat
  block_id : Nat
  deriving DecidableEq

/-- Modelled from the spec: block metadata submitted for proposal signing;
the engine consults epoch, round and the proposer identity. -/
structure BlockData where
  epoch : Nat
  round : Nat
  author : Nat
  deriving DecidableEq

/-- Modelled from the spec: a round-timeout artifact. -/
structure Timeout where
  epoch : Nat
  round : Nat
  deriving DecidableEq

/-- Modelled from the spec: the two-chain round-timeout artifact, carrying
the round of the highest quorum certificate it has seen. -/
structure TwoChainTimeout where
  epoch : Nat
  round : Nat
  hqc_round : Nat
  deriving DecidableEq

/-- Modelled from the spec: a timeout certificate aggregates a quorum of
timeout signatures for a round. -/
structure TwoChainTimeoutCertificate where
  round : Nat
  deriving DecidableEq

/-- Modelled from the spec: a ledger state snapshot with epoch, round and
version. -/
structure LedgerInfo where
  epoch : Nat
  round : Nat
  version : Nat
  deriving DecidableEq

/-- Modelled from the spec: a ledger info carrying a quorum of signatures;
the aggregated signatures themselves are opaque to the engine. -/
structure LedgerInfoWithSignatures where
  ledger_info : LedgerInfo
  deriving DecidableEq

/-- Modelled from the spec: a signature produced by the engine over a
consensus artifact; deterministic content standing in for the Ed25519
bytes, recording the epoch and round that were signed. -/
structure Ed25519Signature where
  epoch : Nat
  round : Nat
  deriving DecidableEq

/-- Modelled from the spec: the externally observable snapshot of the
persistent safety state. -/
structure ConsensusState where
  epoch : Nat
  last_voted_round : Nat
  preferred_round : Nat
  in_validator_set : Bool
  deriving DecidableEq

/-- Modelled from the spec (section 7): the error taxonomy of the safety
rules, one kind per failure class. -/
inductive Error where
  | NotInitialized
  | InvalidEpochChangeProof
  | IncorrectEpoch
  | SafetyViolation
  | InvalidCertificate
  | SerializationError
  | SecureStorageError
  | InternalError
  deriving DecidableEq

/-! ## The safety-rules engine, modelled from the spec

The `SafetyRules` struct and its `TSafetyRules` methods are not among the
provided sources (only `serializer.rs`, their caller, is).  Sections 3,
4.1, 7 and 8 of the spec describe them; the definitions below follow those
sections.  Each operation is a function from the persistent safety state
to a typed result paired with the successor state; mutation happens only
on success (spec section 7: validation failures leave the state
untouched). -/

/-- Modelled from the spec: the persistent safety state plus the engine's
initialization status and validator identity. -/
structure SafetyRules where
  initialized : Bool
  epoch : Nat
  last_voted_round : Nat
  preferred_round : Nat
  last_vote : Option Vote
  author : Nat
  in_validator_set : Bool
  deriving DecidableEq

namespace SafetyRules

/-- Modelled from the spec: `consensus_state` is a pure read of the
persistent safety state; it fails only if the engine has not been
initialized, and never mutates. -/
def consensus_state (s : SafetyRules) : Except Error ConsensusState × SafetyRules :=
  if s.initialized then
    (Except.ok ⟨s.epoch, s.last_voted_round, s.preferred_round, s.in_validator_set⟩, s)
  else
    (Except.error Error.NotInitialized, s)

/-- Modelled from the spec: `initialize` verifies the epoch-change proof
and requires it to strictly advance the epoch; on success it advances
`epoch`, resets `last_voted_round` and `preferred_round` to the new
epoch's starting values, clears `last_vote` and adopts the new validator
set.  A proof that does not validate or does not strictly advance the
epoch fails with `InvalidEpochChangeProof` and leaves the state
unchanged. -/
def doInitialize (proof : EpochChangeProof) (s : SafetyRules) :
    Except Error Unit × SafetyRules :=
  if proof.valid ∧ s.epoch < proof.target_epoch then
    (Except.ok (),
      { initialized := true
        epoch := proof.target_epoch
        last_voted_round := 0
        preferred_round := 0
        last_vote := none
        author := s.author
        in_validator_set := proof.in_validator_set })
  else
    (Except.error Error.InvalidEpochChangeProof, s)

/-- Modelled from the spec: `sign_proposal` signs a block only if the
engine is initialized, the block's epoch matches the current epoch and the
caller is the expected proposer; it does not touch `last_voted_round`. -/
def sign_proposal (block_data : BlockData) (s : SafetyRules) :
    Except Error Ed25519Signature × SafetyRules :=
  if ¬ s.initialized then
    (Except.error Error.NotInitialized, s)
  else if block_data.epoch ≠ s.epoch then
    (Except.error Error.IncorrectEpoch, s)
  else if block_data.author ≠ s.author then
    (Except.error Error.InvalidCertificate, s)
  else
    (Except.ok ⟨block_data.epoch, block_data.round⟩, s)

/-- Modelled from the spec: the single-chain voting rule.  Accepts only if
the engine is initialized, the proposal's epoch matches, the proposal's
round is strictly greater than `last_voted_round` and the embedded QC's
round is at least `preferred_round`; on acceptance it raises
`preferred_round` to the QC round if greater, sets `last_voted_round` to
the proposal's round, records the new `last_vote` and returns the signed
vote.  Per the spec's error taxonomy, an epoch mismatch fails with
`IncorrectEpoch` and a round or lock violation with `SafetyViolation`;
every failure leaves the state unchanged. -/
def construct_and_sign_vote (vote_proposal : MaybeSignedVoteProposal) (s : SafetyRules) :
    Except Error Vote × SafetyRules :=
  if ¬ s.initialized then
    (Except.error Error.NotInitialized, s)
  else if vote_proposal.epoch ≠ s.epoch then
    (Except.error Error.IncorrectEpoch, s)
  else if ¬ (s.last_voted_round < vote_proposal.round ∧
      s.preferred_round ≤ vote_proposal.qc_round) then
    (Except.error Error.SafetyViolation, s)
  else
    let vote : Vote := ⟨s.epoch, vote_proposal.round, vote_proposal.block_id⟩
    (Except.ok vote,
      { s with
        last_voted_round := vote_proposal.round
        preferred_round := max s.preferred_round vote_proposal.qc_round
        last_vote := some vote })

/-- Modelled from the spec: `sign_timeout` signs a round timeout when the
engine is initialized, the timeout's epoch matches and its round is at
least `last_voted_round`; it raises `last_voted_round` to at least the
timeout's round so no later vote can target a lower round. -/
def sign_timeout (timeout : Timeout) (s : SafetyRules) :
    Except Error Ed25519Signature × SafetyRules :=
  if ¬ s.initialized then
    (Except.error Error.NotInitialized, s)
  else if timeout.epoch ≠ s.epoch then
    (Except.error Error.IncorrectEpoch, s)
  else if timeout.round < s.last_voted_round then
    (Except.error Error.SafetyViolation, s)
  else
    (Except.ok ⟨timeout.epoch, timeout.round⟩,
      { s with last_voted_round := max s.last_voted_round timeout.round })

/-- Modelled from the spec: the two-chain timeout signing rule; as
`sign_timeout`, and when a timeout certificate is supplied its round must
be consistent with the timeout's justification (strictly below the timeout
round). -/
def sign_timeout_with_qc (timeout : TwoChainTimeout)
    (timeout_cert : Option TwoChainTimeoutCertificate) (s : SafetyRules) :
    Except Error Ed25519Signature × SafetyRules :=
  if ¬ s.initialized then
    (Except.error Error.NotInitialized, s)
  else if timeout.epoch ≠ s.epoch then
    (Except.error Error.IncorrectEpoch, s)
  else if (match timeout_cert with
    | some tc => decide (¬ tc.round < timeout.round)
    | none => false) then
    (Except.error Error.InvalidCertificate, s)
  else if timeout.round < s.last_voted_round then
    (Except.error Error.SafetyViolation, s)
  else
    (Except.ok ⟨timeout.epoch, timeout.round⟩,
      { s with last_voted_round := max s.last_voted_round timeout.round })

/-- Modelled from the spec: the two-chain lock-advancement bound, the
higher of the proposal's QC round and, when present, the TC's round. -/
def lockRound (vote_proposal : MaybeSignedVoteProposal) :
    Option TwoChainTimeoutCertificate → Nat
  | some tc => max vote_proposal.qc_round tc.round
  | none => vote_proposal.qc_round

/-- Modelled from the spec: the two-chain voting rule; identical
equivocation guard as the single-chain rule, but the lock-advancement
check is satisfied by the higher of the proposal's QC round and, if
present, the TC's round (`lockRound`), and that higher round is what
`preferred_round` advances to. -/
def construct_and_sign_vote_two_chain (vote_proposal : MaybeSignedVoteProposal)
    (timeout_cert : Option TwoChainTimeoutCertificate) (s : SafetyRules) :
    Except Error Vote × SafetyRules :=
  if ¬ s.initialized then
    (Except.error Error.NotInitialized, s)
  else if vote_proposal.epoch ≠ s.epoch then
    (Except.error Error.IncorrectEpoch, s)
  else if ¬ (s.last_voted_round < vote_proposal.round ∧
      s.preferred_round ≤ lockRound vote_proposal timeout_cert) then
    (Except.error Error.SafetyViolation, s)
  else
    let vote : Vote := ⟨s.epoch, vote_proposal.round, vote_proposal.block_id⟩
    (Except.ok vote,
      { s with
        last_voted_round := vote_proposal.round
        preferred_round := max s.preferred_round (lockRound vote_proposal timeout_cert)
        last_vote := some vote })

/-- Modelled from the spec: `sign_commit_vote` signs a commit-phase
artifact when the engine is initialized, both ledger infos belong to the
current epoch and the new ledger info is round- and version-monotone over
the certified one; it neither consults nor mutates `last_voted_round` or
`preferred_round`. -/
def sign_commit_vote (ledger_info : LedgerInfoWithSignatures)
    (new_ledger_info : LedgerInfo) (s : SafetyRules) :
    Except Error Ed25519Signature × SafetyRules :=
  if ¬ s.initialized then
    (Except.error Error.NotInitialized, s)
  else if ledger_info.ledger_info.epoch ≠ s.epoch ∨ new_ledger_info.epoch ≠ s.epoch then
    (Except.error Error.IncorrectEpoch, s)
  else if new_ledger_info.round < ledger_info.ledger_info.round ∨
      new_ledger_info.version < ledger_info.ledger_info.version then
    (Except.error Error.InvalidCertificate, s)
  else
    (Except.ok ⟨new_ledger_info.epoch, new_ledger_info.round⟩, s)

end SafetyRules

/-! ## Well-formedness: every embedded integer fits in a Rust u64 -/

/-- A value representable as a Rust u64. -/
abbrev WF64 (n : Nat) : Prop := n < 2 ^ 64

abbrev EpochChangeProof.WF (p : EpochChangeProof) : Prop := WF64 p.target_epoch

abbrev MaybeSignedVoteProposal.WF (vp : MaybeSignedVoteProposal) : Prop :=
  WF64 vp.epoch ∧ WF64 vp.round ∧ WF64 vp.qc_round ∧ WF64 vp.block_id

abbrev Vote.WF (v : Vote) : Prop := WF64 v.epoch ∧ WF64 v.round ∧ WF64 v.block_id

abbrev BlockData.WF (b : BlockData) : Prop := WF64 b.epoch ∧ WF64 b.round ∧ WF64 b.author

abbrev Timeout.WF (t : Timeout) : Prop := WF64 t.epoch ∧ WF64 t.round

abbrev TwoChainTimeout.WF (t : TwoChainTimeout) : Prop :=
  WF64 t.epoch ∧ WF64 t.round ∧ WF64 t.hqc_round

abbrev TwoChainTimeoutCertificate.WF (tc : TwoChainTimeoutCertificate) : Prop := WF64 tc.round

abbrev LedgerInfo.WF (li : LedgerInfo) : Prop :=
  WF64 li.epoch ∧ WF64 li.round ∧ WF64 li.version

abbrev LedgerInfoWithSignatures.WF (li : LedgerInfoWithSignatures) : Prop := li.ledger_info.WF

abbrev Ed25519Signature.WF (sig : Ed25519Signature) : Prop := WF64 sig.epoch ∧ WF64 sig.round

abbrev ConsensusState.WF (cs : ConsensusState) : Prop :=
  WF64 cs.epoch ∧ WF64 cs.last_voted_round ∧ WF64 cs.preferred_round

abbrev SafetyRules.WF (s : SafetyRules) : Prop :=
  WF64 s.epoch ∧ WF64 s.last_voted_round ∧ WF64 s.preferred_round ∧ WF64 s.author

/-! ## BCS codecs for the payload types

Each type is encoded field by field in declaration order, with no
self-describing schema, exactly as `bcs` serializes the corresponding Rust
struct; decoding returns the value and the unconsumed remainder, or `none`
on malformed input. -/

def encodeEpochChangeProof (p : EpochChangeProof) : List Nat :=
  encodeU64 p.target_epoch ++ encodeBool p.valid ++ encodeBool p.in_validator_set

def decodeEpochChangeProof (bs : List Nat) : Option (EpochChangeProof × List Nat) :=
  match decodeU64 bs with
  | none => none
  | some (te, bs1) =>
    match decodeBool bs1 with
    | none => none
    | some (v, bs2) =>
      match decodeBool bs2 with
      | none => none
      | some (m, bs3) => some (⟨te, v, m⟩, bs3)

def encodeMaybeSignedVoteProposal (vp : MaybeSignedVoteProposal) : List Nat :=
  encodeU64 vp.epoch ++ encodeU64 vp.round ++ encodeU64 vp.qc_round ++ encodeU64 vp.block_id

def decodeMaybeSignedVoteProposal (bs : List Nat) :
    Option (MaybeSignedVoteProposal × List Nat) :=
  match decodeU64 bs with
  | none => none
  | some (e, bs1) =>
    match decodeU64 bs1 with
    | none => none
    | some (r, bs2) =>
      match decodeU64 bs2 with
      | none => none
      | some (q, bs3) =>
        match decodeU64 bs3 with
        | none => none
        | some (b, bs4) => some (⟨e, r, q, b⟩, bs4)

def encodeVote (v : Vote) : List Nat :=
  encodeU64 v.epoch ++ encodeU64 v.round ++ encodeU64 v.block_id

def decodeVote (bs : List Nat) : Option (Vote × List Nat) :=
  match decodeU64 bs with
  | none => none
  | some (e, bs1) =>
    match decodeU64 bs1 with
    | none => none
    | some (r, bs2) =>
      match decodeU64 bs2 with
      | none => none
      | some (b, bs3) => some (⟨e, r, b⟩, bs3)

def encodeBlockData (b : BlockData) : List Nat :=
  encodeU64 b.epoch ++ encodeU64 b.round ++ encodeU64 b.author

def decodeBlockData (bs : List Nat) : Option (BlockData × List Nat) :=
  match decodeU64 bs with
  | none => none
  | some (e, bs1) =>
    match decodeU64 bs1 with
    | none => none
    | some (r, bs2) =>
      match decodeU64 bs2 with
      | none => none
      | some (a, bs3) => some (⟨e, r, a⟩, bs3)

def encodeTimeout (t : Timeout) : List Nat :=
  encodeU64 t.epoch ++ encodeU64 t.round

def decodeTimeout (bs : List Nat) : Option (Timeout × List Nat) :=
  match decodeU64 bs with
  | none => none
  | some (e, bs1) =>
    match decodeU64 bs1 with
    | none => none
    | some (r, bs2) => some (⟨e, r⟩, bs2)

def encodeTwoChainTimeout (t : TwoChainTimeout) : List Nat :=
  encodeU64 t.epoch ++ encodeU64 t.round ++ encodeU64 t.hqc_round

def decodeTwoChainTimeout (bs : List Nat) : Option (TwoChainTimeout × List Nat) :=
  match decodeU64 bs with
  | none => none
  | some (e, bs1) =>
    match decodeU64 bs1 with
    | none => none
    | some (r, bs2) =>
      match decodeU64 bs2 with
      | none => none
      | some (h, bs3) => some (⟨e, r, h⟩, bs3)

def encodeTC (tc : TwoChainTimeoutCertificate) : List Nat := encodeU64 tc.round

def decodeTC (bs : List Nat) : Option (TwoChainTimeoutCertificate × List Nat) :=
  match decodeU64 bs with
  | none => none
  | some (r, bs1) => some (⟨r⟩, bs1)

/-- BCS encoding of `Option<TwoChainTimeoutCertificate>`: a 0/1 byte, then
the payload when present. -/
def encodeMaybeTC : Option TwoChainTimeoutCertificate → List Nat
  | none => [0]
  | some tc => 1 :: encodeTC tc

def decodeMaybeTC : List Nat → Option (Option TwoChainTimeoutCertificate × List Nat)
  | 0 :: bs => some (none, bs)
  | 1 :: bs =>
    match decodeTC bs with
    | none => none
    | some (tc, bs1) => some (some tc, bs1)
  | _ => none

def encodeLedgerInfo (li : LedgerInfo) : List Nat :=
  encodeU64 li.epoch ++ encodeU64 li.round ++ encodeU64 li.version

def decodeLedgerInfo (bs : List Nat) : Option (LedgerInfo × List Nat) :=
  match decodeU64 bs with
  | none => none
  | some (e, bs1) =>
    match decodeU64 bs1 with
    | none => none
    | some (r, bs2) =>
      match decodeU64 bs2 with
      | none => none
      | some (v, bs3) => some (⟨e, r, v⟩, bs3)

def encodeLIWS (li : LedgerInfoWithSignatures) : List Nat := encodeLedgerInfo li.ledger_info

def decodeLIWS (bs : List Nat) : Option (LedgerInfoWithSignatures × List Nat) :=
  match decodeLedgerInfo bs with
  | none => none
  | some (li, bs1) => some (⟨li⟩, bs1)

def encodeSignature (sig : Ed25519Signature) : List Nat :=
  encodeU64 sig.epoch ++ encodeU64 sig.round

def decodeSignature (bs : List Nat) : Option (Ed25519Signature × List Nat) :=
  match decodeU64 bs with
  | none => none
  | some (e, bs1) =>
    match decodeU64 bs1 with
    | none => none
    | some (r, bs2) => some (⟨e, r⟩, bs2)

def encodeConsensusState (cs : ConsensusState) : List Nat :=
  encodeU64 cs.epoch ++ encodeU64 cs.last_voted_round ++ encodeU64 cs.preferred_round ++
    encodeBool cs.in_validator_set

def decodeConsensusState (bs : List Nat) : Option (ConsensusState × List Nat) :=
  match decodeU64 bs with
  | none => none
  | some (e, bs1) =>
    match decodeU64 bs1 with
    | none => none
    | some (l, bs2) =>
      match decodeU64 bs2 with
      | none => none
      | some (p, bs3) =>
        match decodeBool bs3 with
        | none => none
        | some (m, bs4) => some (⟨e, l, p, m⟩, bs4)

/-- BCS encoding of the error enum: the ULEB128 variant index, one byte
here since all indexes are below 128. -/
def encodeError : Error → List Nat
  | Error.NotInitialized => [0]
  | Error.InvalidEpochChangeProof => [1]
  | Error.IncorrectEpoch => [2]
  | Error.SafetyViolation => [3]
  | Error.InvalidCertificate => [4]
  | Error.SerializationError => [5]
  | Error.SecureStorageError => [6]
  | Error.InternalError => [7]

def decodeError : List Nat → Option (Error × List Nat)
  | 0 :: bs => some (Error.NotInitialized, bs)
  | 1 :: bs => some (Error.InvalidEpochChangeProof, bs)
  | 2 :: bs => some (Error.IncorrectEpoch, bs)
  | 3 :: bs => some (Error.SafetyViolation, bs)
  | 4 :: bs => some (Error.InvalidCertificate, bs)
  | 5 :: bs => some (Error.SerializationError, bs)
  | 6 :: bs => some (Error.SecureStorageError, bs)
  | 7 :: bs => some (Error.InternalError, bs)
  | _ => none

/-- BCS encoding of a Rust `Result`: variant 0 with the success payload or
variant 1 with the error payload. -/
def encodeResultWith (enc : α → List Nat) : Except Error α → List Nat
  | Except.ok a => 0 :: enc a
  | Except.error e => 1 :: encodeError e

def decodeResultWith (dec : List Nat → Option (α × List Nat)) :
    List Nat → Option (Except Error α × List Nat)
  | 0 :: bs =>
    match dec bs with
    | none => none
    | some (a, bs1) => some (Except.ok a, bs1)
  | 1 :: bs =>
    match decodeError bs with
    | none => none
    | some (e, bs1) => some (Except.error e, bs1)
  | _ => none

/-- BCS encoding of the Rust unit type: zero bytes. -/
def encodeUnit : Unit → List Nat
  | () => []

def decodeUnit (bs : List Nat) : Option (Unit × List Nat) := some ((), bs)

/-- The whole-input discipline of `bcs::from_bytes`: the decode succeeds
only when every input byte is consumed. -/
def fromBytes (dec : List Nat → Option (α × List Nat)) (bs : List Nat) : Option α :=
  match dec bs with
  | some (a, []) => some a
  | _ => none

/-- Well-formedness of an optional timeout certificate. -/
def WFMaybeTC : Option TwoChainTimeoutCertificate → Prop
  | none => True
  | some tc => tc.WF

instance (mtc : Option TwoChainTimeoutCertificate) : Decidable (WFMaybeTC mtc) := by
  cases mtc <;> simp only [WFMaybeTC] <;> infer_instance

/-- Well-formedness of a typed result: the success payload, if any, is
well-formed. -/
def WFResult (P : α → Prop) : Except Error α → Prop
  | Except.ok a => P a
  | Except.error _ => True

instance (P : α → Prop) [DecidablePred P] (x : Except Error α) :
    Decidable (WFResult P x) := by
  cases x <;> simp only [WFResult] <;> infer_instance

/-! ## The wire enum `SafetyRulesInput`

Translated from `serializer.rs` lines 21-37: one variant per engine
operation, carrying exactly that operation's arguments; the optional
timeout certificate is an explicit present/absent choice.  `Box` is the
identity in this embedding. -/

inductive SafetyRulesInput where
  | ConsensusState
  | Initialize (li : EpochChangeProof)
  | ConstructAndSignVote (vote_proposal : MaybeSignedVoteProposal)
  | SignProposal (block_data : BlockData)
  | SignTimeout (timeout : Timeout)
  | SignTimeoutWithQC (timeout : TwoChainTimeout)
      (maybe_tc : Option TwoChainTimeoutCertificate)
  | ConstructAndSignVoteTwoChain (vote_proposal : MaybeSignedVoteProposal)
      (maybe_tc : Option TwoChainTimeoutCertificate)
  | SignCommitVote (ledger_info : LedgerInfoWithSignatures) (new_ledger_info : LedgerInfo)
  deriving DecidableEq

/-- BCS encoding of `SafetyRulesInput`: the variant index in declaration
order, then the variant's payloads in order. -/
def encodeInput : SafetyRulesInput → List Nat
  | SafetyRulesInput.ConsensusState => [0]
  | SafetyRulesInput.Initialize li => 1 :: encodeEpochChangeProof li
  | SafetyRulesInput.ConstructAndSignVote vp => 2 :: encodeMaybeSignedVoteProposal vp
  | SafetyRulesInput.SignProposal bd => 3 :: encodeBlockData bd
  | SafetyRulesInput.SignTimeout t => 4 :: encodeTimeout t
  | SafetyRulesInput.SignTimeoutWithQC t mtc => 5 :: (encodeTwoChainTimeout t ++ encodeMaybeTC mtc)
  | SafetyRulesInput.ConstructAndSignVoteTwoChain vp mtc =>
      6 :: (encodeMaybeSignedVoteProposal vp ++ encodeMaybeTC mtc)
  | SafetyRulesInput.SignCommitVote li nli => 7 :: (encodeLIWS li ++ encodeLedgerInfo nli)

def decodeInput : List Nat → Option (SafetyRulesInput × List Nat)
  | 0 :: bs => some (SafetyRulesInput.ConsensusState, bs)
  | 1 :: bs =>
    match decodeEpochChangeProof bs with
    | none => none
    | some (li, bs1) => some (SafetyRulesInput.Initialize li, bs1)
  | 2 :: bs =>
    match decodeMaybeSignedVoteProposal bs with
    | none => none
    | some (vp, bs1) => some (SafetyRulesInput.ConstructAndSignVote vp, bs1)
  | 3 :: bs =>
    match decodeBlockData bs with
    | none => none
    | some (bd, bs1) => some (SafetyRulesInput.SignProposal bd, bs1)
  | 4 :: bs =>
    match decodeTimeout bs with
    | none => none
    | some (t, bs1) => some (SafetyRulesInput.SignTimeout t, bs1)
  | 5 :: bs =>
    match decodeTwoChainTimeout bs with
    | none => none
    | some (t, bs1) =>
      match decodeMaybeTC bs1 with
      | none => none
      | some (mtc, bs2) => some (SafetyRulesInput.SignTimeoutWithQC t mtc, bs2)
  | 6 :: bs =>
    match decodeMaybeSignedVoteProposal bs with
    | none => none
    | some (vp, bs1) =>
      match decodeMaybeTC bs1 with
      | none => none
      | some (mtc, bs2) => some (SafetyRulesInput.ConstructAndSignVoteTwoChain vp mtc, bs2)
  | 7 :: bs =>
    match decodeLIWS bs with
    | none => none
    | some (li, bs1) =>
      match decodeLedgerInfo bs1 with
      | none => none
      | some (nli, bs2) => some (SafetyRulesInput.SignCommitVote li nli, bs2)
  | _ => none

/-- Well-formedness of a request: every embedded integer fits in a u64. -/
def SafetyRulesInput.WF : SafetyRulesInput → Prop
  | SafetyRulesInput.ConsensusState => True
  | SafetyRulesInput.Initialize li => li.WF
  | SafetyRulesInput.ConstructAndSignVote vp => vp.WF
  | SafetyRulesInput.SignProposal bd => bd.WF
  | SafetyRulesInput.SignTimeout t => t.WF
  | SafetyRulesInput.SignTimeoutWithQC t mtc => t.WF ∧ WFMaybeTC mtc
  | SafetyRulesInput.ConstructAndSignVoteTwoChain vp mtc => vp.WF ∧ WFMaybeTC mtc
  | SafetyRulesInput.SignCommitVote li nli => li.WF ∧ nli.WF

instance (i : SafetyRulesInput) : Decidable i.WF := by
  cases i <;> simp only [SafetyRulesInput.WF] <;> infer_instance

/-! ## The serializing service

Translated from `serializer.rs` lines 39-84.  `SerializerService` owns one
`SafetyRules` engine (`internal`); its state is threaded explicitly, so an
operation maps the engine state to a result paired with the successor
state.  `bcs::to_bytes` cannot fail on these types, so encoding is total
here; `bcs::from_bytes` failures become `Error.SerializationError` exactly
as the `?` on line 49 converts them through `From<bcs::Error>`. -/

namespace SerializerService

/-- The dispatch match of `handle_message` (lines 51-80): each decoded
variant calls the engine method of the same name with exactly the
variant's arguments and BCS-encodes the method's typed result. -/
def dispatch (input : SafetyRulesInput) (internal : SafetyRules) : List Nat × SafetyRules :=
  match input with
  | SafetyRulesInput.ConsensusState =>
    (encodeResultWith encodeConsensusState (internal.consensus_state).1,
      (internal.consensus_state).2)
  | SafetyRulesInput.Initialize li =>
    (encodeResultWith encodeUnit (SafetyRules.doInitialize li internal).1,
      (SafetyRules.doInitialize li internal).2)
  | SafetyRulesInput.ConstructAndSignVote vote_proposal =>
    (encodeResultWith encodeVote (SafetyRules.construct_and_sign_vote vote_proposal internal).1,
      (SafetyRules.construct_and_sign_vote vote_proposal internal).2)
  | SafetyRulesInput.SignProposal block_data =>
    (encodeResultWith encodeSignature (SafetyRules.sign_proposal block_data internal).1,
      (SafetyRules.sign_proposal block_data internal).2)
  | SafetyRulesInput.SignTimeout timeout =>
    (encodeResultWith encodeSignature (SafetyRules.sign_timeout timeout internal).1,
      (SafetyRules.sign_timeout timeout internal).2)
  | SafetyRulesInput.SignTimeoutWithQC timeout maybe_tc =>
    (encodeResultWith encodeSignature
        (SafetyRules.sign_timeout_with_qc timeout maybe_tc internal).1,
      (SafetyRules.sign_timeout_with_qc timeout maybe_tc internal).2)
  | SafetyRulesInput.ConstructAndSignVoteTwoChain vote_proposal maybe_tc =>
    (encodeResultWith encodeVote
        (SafetyRules.construct_and_sign_vote_two_chain vote_proposal maybe_tc internal).1,
      (SafetyRules.construct_and_sign_vote_two_chain vote_proposal maybe_tc internal).2)
  | SafetyRulesInput.SignCommitVote ledger_info new_ledger_info =>
    (encodeResultWith encodeSignature
        (SafetyRules.sign_commit_vote ledger_info new_ledger_info internal).1,
      (SafetyRules.sign_commit_vote ledger_info new_ledger_info internal).2)

/-- Translated from `handle_message` (lines 48-83): decode the request
bytes (a failure surfaces as the serialization error, before any engine
call), dispatch, and return the encoded typed result. -/
def handle_message (internal : SafetyRules) (input_message : List Nat) :
    Except Error (List Nat) × SafetyRules :=
  match fromBytes decodeInput input_message with
  | none => (Except.error Error.SerializationError, internal)
  | some input => (Except.ok (dispatch input internal).1, (dispatch input internal).2)

end SerializerService

/-! ## The in-process transport and the client proxy

Translated from `serializer.rs` lines 86-198.  `LocalService::request`
encodes the typed request and hands it, under the write lock of the shared
service, to `handle_message`; each `SerializerClient` method builds its
request variant, sends it through the transport and decodes the response
bytes into the expected typed result (lines 105-181). -/

namespace LocalService

/-- Translated from `LocalService::request` (lines 191-198). -/
def request (input : SafetyRulesInput) (internal : SafetyRules) :
    Except Error (List Nat) × SafetyRules :=
  SerializerService.handle_message internal (encodeInput input)

end LocalService

namespace SerializerClient

/-- The common shape of every client method: send the request and decode
the response bytes into the expected typed result; a response that fails
to decode surfaces as the serialization error via the trailing question
mark operator. -/
def call (input : SafetyRulesInput) (dec : List Nat → Option (Except Error α × List Nat))
    (internal : SafetyRules) : Except Error α × SafetyRules :=
  match LocalService.request input internal with
  | (Except.error e, s1) => (Except.error e, s1)
  | (Except.ok response, s1) =>
    match fromBytes dec response with
    | none => (Except.error Error.SerializationError, s1)
    | some r => (r, s1)

/-- Translated from lines 106-110. -/
def consensus_state (internal : SafetyRules) : Except Error ConsensusState × SafetyRules :=
  call SafetyRulesInput.ConsensusState (decodeResultWith decodeConsensusState) internal

/-- Translated from lines 112-116 (the client's initialize method). -/
def doInitialize (proof : EpochChangeProof) (internal : SafetyRules) :
    Except Error Unit × SafetyRules :=
  call (SafetyRulesInput.Initialize proof) (decodeResultWith decodeUnit) internal

/-- Translated from lines 118-127. -/
def construct_and_sign_vote (vote_proposal : MaybeSignedVoteProposal)
    (internal : SafetyRules) : Except Error Vote × SafetyRules :=
  call (SafetyRulesInput.ConstructAndSignVote vote_proposal)
    (decodeResultWith decodeVote) internal

/-- Translated from lines 129-134. -/
def sign_proposal (block_data : BlockData) (internal : SafetyRules) :
    Except Error Ed25519Signature × SafetyRules :=
  call (SafetyRulesInput.SignProposal block_data) (decodeResultWith decodeSignature) internal

/-- Translated from lines 136-140. -/
def sign_timeout (timeout : Timeout) (internal : SafetyRules) :
    Except Error Ed25519Signature × SafetyRules :=
  call (SafetyRulesInput.SignTimeout timeout) (decodeResultWith decodeSignature) internal

/-- Translated from lines 142-153. -/
def sign_timeout_with_qc (timeout : TwoChainTimeout)
    (timeout_cert : Option TwoChainTimeoutCertificate) (internal : SafetyRules) :
    Except Error Ed25519Signature × SafetyRules :=
  call (SafetyRulesInput.SignTimeoutWithQC timeout timeout_cert)
    (decodeResultWith decodeSignature) internal

/-- Translated from lines 155-167. -/
def construct_and_sign_vote_two_chain (vote_proposal : MaybeSignedVoteProposal)
    (timeout_cert : Option TwoChainTimeoutCertificate) (internal : SafetyRules) :
    Except Error Vote × SafetyRules :=
  call (SafetyRulesInput.ConstructAndSignVoteTwoChain vote_proposal timeout_cert)
    (decodeResultWith decodeVote) internal

/-- Translated from lines 169-180. -/
def sign_commit_vote (ledger_info : LedgerInfoWithSignatures) (new_ledger_info : LedgerInfo)
    (internal : SafetyRules) : Except Error Ed25519Signature × SafetyRules :=
  call (SafetyRulesInput.SignCommitVote ledger_info new_ledger_info)
    (decodeResultWith decodeSignature) internal

end SerializerClient

/-! ## Serial runs of requests against one engine -/

/-- A serially submitted vote request: one of the two vote-signing
operations of the engine. -/
inductive VoteReq where
  | single (vote_proposal : MaybeSignedVoteProposal)
  | twoChain (vote_proposal : MaybeSignedVoteProposal)
      (maybe_tc : Option TwoChainTimeoutCertificate)
  deriving DecidableEq

def applyVoteReq : VoteReq → SafetyRules → Except Error Vote × SafetyRules
  | VoteReq.single vp, s => SafetyRules.construct_and_sign_vote vp s
  | VoteReq.twoChain vp mtc, s => SafetyRules.construct_and_sign_vote_two_chain vp mtc s

/-- Run a list of vote requests serially, collecting every result. -/
def runVotes : List VoteReq → SafetyRules → List (Except Error Vote) × SafetyRules
  | [], s => ([], s)
  | q :: qs, s =>
    ((applyVoteReq q s).1 :: (runVotes qs (applyVoteReq q s).2).1,
      (runVotes qs (applyVoteReq q s).2).2)

/-- The votes actually signed and returned during a serial run. -/
def signedVotes (l : List VoteReq) (s : SafetyRules) : List Vote :=
  (runVotes l s).1.filterMap fun r =>
    match r with
    | Except.ok v => some v
    | Except.error _ => none

/-- The engine state after dispatching one decoded request. -/
def stepState (i : SafetyRulesInput) (s : SafetyRules) : SafetyRules :=
  (SerializerService.dispatch i s).2

/-- The engine state after a serial run of requests through the
serializing service. -/
def runInputs : List SafetyRulesInput → SafetyRules → SafetyRules
  | [], s => s
  | i :: rest, s => runInputs rest (stepState i s)

/-! ## Sample values used to exhibit the theorems on concrete inputs -/

/-- The running example of the spec's test scenarios: initialized, epoch 5,
last voted round 10, preferred round 8. -/
def sampleState : SafetyRules :=
  { initialized := true
    epoch := 5
    last_voted_round := 10
    preferred_round := 8
    last_vote := none
    author := 1
    in_validator_set := true }

/-- A proposal for round 11 with QC round 9 in epoch 5. -/
def sampleProposal : MaybeSignedVoteProposal := ⟨5, 11, 9, 42⟩

/-- The vote the engine signs for `sampleProposal` from `sampleState`. -/
def sampleVote : Vote := ⟨5, 11, 42⟩

/-- A proposal whose epoch 4 does not match `sampleState`. -/
def wrongEpochProposal : MaybeSignedVoteProposal := ⟨4, 11, 9, 77⟩

/-- A valid epoch-change proof whose target epoch 5 does not exceed the
current epoch of `sampleState`. -/
def sampleProof : EpochChangeProof := ⟨5, true, true⟩

/-! ## The claims -/

/-! ## Theorems -/

theorem decodeUnsigned_encodeUnsigned (k : Nat) :
    ∀ (n : Nat) (r : List Nat), n < 256 ^ k →
      decodeUnsigned k (encodeUnsigned k n ++ r) = some (n, r) := by
  induction k with
  | zero =>
    intro n r h
    simp only [Nat.pow_zero, Nat.lt_one_iff] at h
    subst h
    simp [encodeUnsigned, decodeUnsigned]
  | succ k ih =>
    intro n r h
    have hdiv : n / 256 < 256 ^ k := by
      rw [Nat.div_lt_iff_lt_mul (by norm_num)]
      calc n < 256 ^ (k + 1) := h
        _ = 256 ^ k * 256 := by ring
    have hrec := ih (n / 256) r hdiv
    simp only [encodeUnsigned, decodeUnsigned, List.cons_append, List.append_eq, hrec]
    rw [Nat.mod_add_div]

theorem decodeU64_encodeU64 (n : Nat) (r : List Nat) (h : n < 2 ^ 64) :
    decodeU64 (encodeU64 n ++ r) = some (n, r) := by
  have h256 : n < 256 ^ 8 := by
    have : (256 : Nat) ^ 8 = 2 ^ 64 := by norm_num
    omega
  exact decodeUnsigned_encodeUnsigned 8 n r h256

theorem decodeBool_encodeBool (b : Bool) (r : List Nat) :
    decodeBool (encodeBool b ++ r) = some (b, r) := by
  cases b <;> simp [encodeBool, decodeBool]

/-! ## Codec roundtrips -/

theorem decodeEpochChangeProof_encode (p : EpochChangeProof) (r : List Nat) (h : p.WF) :
    decodeEpochChangeProof (encodeEpochChangeProof p ++ r) = some (p, r) := by
  simp only [encodeEpochChangeProof, decodeEpochChangeProof, List.append_assoc,
    decodeU64_encodeU64 _ _ h, decodeBool_encodeBool]

theorem decodeMaybeSignedVoteProposal_encode (vp : MaybeSignedVoteProposal) (r : List Nat)
    (h : vp.WF) :
    decodeMaybeSignedVoteProposal (encodeMaybeSignedVoteProposal vp ++ r) = some (vp, r) := by
  obtain ⟨h1, h2, h3, h4⟩ := h
  simp only [encodeMaybeSignedVoteProposal, decodeMaybeSignedVoteProposal, List.append_assoc,
    decodeU64_encodeU64 _ _ h1, decodeU64_encodeU64 _ _ h2, decodeU64_encodeU64 _ _ h3,
    decodeU64_encodeU64 _ _ h4]

theorem decodeVote_encode (v : Vote) (r : List Nat) (h : v.WF) :
    decodeVote (encodeVote v ++ r) = some (v, r) := by
  obtain ⟨h1, h2, h3⟩ := h
  simp only [encodeVote, decodeVote, List.append_assoc, decodeU64_encodeU64 _ _ h1,
    decodeU64_encodeU64 _ _ h2, decodeU64_encodeU64 _ _ h3]

theorem decodeBlockData_encode (b : BlockData) (r : List Nat) (h : b.WF) :
    decodeBlockData (encodeBlockData b ++ r) = some (b, r) := by
  obtain ⟨h1, h2, h3⟩ := h
  simp only [encodeBlockData, decodeBlockData, List.append_assoc, decodeU64_encodeU64 _ _ h1,
    decodeU64_encodeU64 _ _ h2, decodeU64_encodeU64 _ _ h3]

theorem decodeTimeout_encode (t : Timeout) (r : List Nat) (h : t.WF) :
    decodeTimeout (encodeTimeout t ++ r) = some (t, r) := by
  obtain ⟨h1, h2⟩ := h
  simp only [encodeTimeout, decodeTimeout, List.append_assoc, decodeU64_encodeU64 _ _ h1,
    decodeU64_encodeU64 _ _ h2]

theorem decodeTwoChainTimeout_encode (t : TwoChainTimeout) (r : List Nat) (h : t.WF) :
    decodeTwoChainTimeout (encodeTwoChainTimeout t ++ r) = some (t, r) := by
  obtain ⟨h1, h2, h3⟩ := h
  simp only [encodeTwoChainTimeout, decodeTwoChainTimeout, List.append_assoc,
    decodeU64_encodeU64 _ _ h1, decodeU64_encodeU64 _ _ h2, decodeU64_encodeU64 _ _ h3]

theorem decodeTC_encode (tc : TwoChainTimeoutCertificate) (r : List Nat) (h : tc.WF) :
    decodeTC (encodeTC tc ++ r) = some (tc, r) := by
  simp only [encodeTC, decodeTC, decodeU64_encodeU64 _ _ h]

theorem decodeMaybeTC_encode (mtc : Option TwoChainTimeoutCertificate) (r : List Nat)
    (h : WFMaybeTC mtc) :
    decodeMaybeTC (encodeMaybeTC mtc ++ r) = some (mtc, r) := by
  cases mtc with
  | none => simp [encodeMaybeTC, decodeMaybeTC]
  | some tc =>
    simp only [WFMaybeTC] at h
    simp only [encodeMaybeTC, decodeMaybeTC, List.cons_append, decodeTC_encode tc r h]

theorem decodeLedgerInfo_encode (li : LedgerInfo) (r : List Nat) (h : li.WF) :
    decodeLedgerInfo (encodeLedgerInfo li ++ r) = some (li, r) := by
  obtain ⟨h1, h2, h3⟩ := h
  simp only [encodeLedgerInfo, decodeLedgerInfo, List.append_assoc,
    decodeU64_encodeU64 _ _ h1, decodeU64_encodeU64 _ _ h2, decodeU64_encodeU64 _ _ h3]

theorem decodeLIWS_encode (li : LedgerInfoWithSignatures) (r : List Nat) (h : li.WF) :
    decodeLIWS (encodeLIWS li ++ r) = some (li, r) := by
  simp only [encodeLIWS, decodeLIWS, decodeLedgerInfo_encode li.ledger_info r h]

theorem decodeSignature_encode (sig : Ed25519Signature) (r : List Nat) (h : sig.WF) :
    decodeSignature (encodeSignature sig ++ r) = some (sig, r) := by
  obtain ⟨h1, h2⟩ := h
  simp only [encodeSignature, decodeSignature, List.append_assoc,
    decodeU64_encodeU64 _ _ h1, decodeU64_encodeU64 _ _ h2]

theorem decodeConsensusState_encode (cs : ConsensusState) (r : List Nat) (h : cs.WF) :
    decodeConsensusState (encodeConsensusState cs ++ r) = some (cs, r) := by
  obtain ⟨h1, h2, h3⟩ := h
  simp only [encodeConsensusState, decodeConsensusState, List.append_assoc,
    decodeU64_encodeU64 _ _ h1, decodeU64_encodeU64 _ _ h2, decodeU64_encodeU64 _ _ h3,
    decodeBool_encodeBool]

theorem decodeError_encode (e : Error) (r : List Nat) :
    decodeError (encodeError e ++ r) = some (e, r) := by
  cases e <;> simp [encodeError, decodeError]

theorem decodeUnit_encode (u : Unit) (r : List Nat) :
    decodeUnit (encodeUnit u ++ r) = some (u, r) := rfl

theorem decodeResultWith_encode {α : Type} {P : α → Prop}
    (enc : α → List Nat) (dec : List Nat → Option (α × List Nat))
    (hdec : ∀ a r, P a → dec (enc a ++ r) = some (a, r))
    (x : Except Error α) (r : List Nat) (h : WFResult P x) :
    decodeResultWith dec (encodeResultWith enc x ++ r) = some (x, r) := by
  cases x with
  | ok a =>
    simp only [WFResult] at h
    simp only [encodeResultWith, decodeResultWith, List.cons_append, hdec a r h]
  | error e =>
    simp only [encodeResultWith, decodeResultWith, List.cons_append, decodeError_encode]

theorem decodeInput_encodeInput (i : SafetyRulesInput) (r : List Nat) (h : i.WF) :
    decodeInput (encodeInput i ++ r) = some (i, r) := by
  cases i with
  | ConsensusState => simp [encodeInput, decodeInput]
  | Initialize li =>
    simp only [SafetyRulesInput.WF] at h
    simp only [encodeInput, decodeInput, List.cons_append, decodeEpochChangeProof_encode li r h]
  | ConstructAndSignVote vp =>
    simp only [SafetyRulesInput.WF] at h
    simp only [encodeInput, decodeInput, List.cons_append,
      decodeMaybeSignedVoteProposal_encode vp r h]
  | SignProposal bd =>
    simp only [SafetyRulesInput.WF] at h
    simp only [encodeInput, decodeInput, List.cons_append, decodeBlockData_encode bd r h]
  | SignTimeout t =>
    simp only [SafetyRulesInput.WF] at h
    simp only [encodeInput, decodeInput, List.cons_append, decodeTimeout_encode t r h]
  | SignTimeoutWithQC t mtc =>
    obtain ⟨h1, h2⟩ := h
    simp only [encodeInput, decodeInput, List.cons_append, List.append_assoc,
      decodeTwoChainTimeout_encode t _ h1, decodeMaybeTC_encode mtc r h2]
  | ConstructAndSignVoteTwoChain vp mtc =>
    obtain ⟨h1, h2⟩ := h
    simp only [encodeInput, decodeInput, List.cons_append, List.append_assoc,
      decodeMaybeSignedVoteProposal_encode vp _ h1, decodeMaybeTC_encode mtc r h2]
  | SignCommitVote li nli =>
    obtain ⟨h1, h2⟩ := h
    simp only [encodeInput, decodeInput, List.cons_append, List.append_assoc,
      decodeLIWS_encode li _ h1, decodeLedgerInfo_encode nli r h2]

/-! ## Whole-input roundtrips and result well-formedness -/

theorem fromBytes_encodeInput (i : SafetyRulesInput) (h : i.WF) :
    fromBytes decodeInput (encodeInput i) = some i := by
  have hrt := decodeInput_encodeInput i [] h
  rw [List.append_nil] at hrt
  simp [fromBytes, hrt]

theorem fromBytes_encodeResult {α : Type} {P : α → Prop}
    (enc : α → List Nat) (dec : List Nat → Option (α × List Nat))
    (hdec : ∀ a r, P a → dec (enc a ++ r) = some (a, r))
    (x : Except Error α) (h : WFResult P x) :
    fromBytes (decodeResultWith dec) (encodeResultWith enc x) = some x := by
  have hrt := decodeResultWith_encode enc dec hdec x [] h
  rw [List.append_nil] at hrt
  simp [fromBytes, hrt]

theorem WFResult_true {α : Type} (x : Except Error α) :
    WFResult (fun _ => True) x := by
  cases x <;> simp [WFResult]

theorem consensus_state_result_WF (s : SafetyRules) (h : s.WF) :
    WFResult ConsensusState.WF (s.consensus_state).1 := by
  obtain ⟨h1, h2, h3, h4⟩ := h
  by_cases hi : s.initialized = true <;>
    simp [SafetyRules.consensus_state, hi, WFResult, ConsensusState.WF, WF64] <;>
    exact ⟨h1, h2, h3⟩

theorem construct_and_sign_vote_result_WF (vp : MaybeSignedVoteProposal) (s : SafetyRules)
    (hs : s.WF) (hvp : vp.WF) :
    WFResult Vote.WF (SafetyRules.construct_and_sign_vote vp s).1 := by
  obtain ⟨hs1, hs2, hs3, hs4⟩ := hs
  obtain ⟨hv1, hv2, hv3, hv4⟩ := hvp
  unfold SafetyRules.construct_and_sign_vote
  split_ifs <;> simp_all [WFResult, Vote.WF, WF64]

theorem sign_proposal_result_WF (bd : BlockData) (s : SafetyRules) (hbd : bd.WF) :
    WFResult Ed25519Signature.WF (SafetyRules.sign_proposal bd s).1 := by
  obtain ⟨h1, h2, h3⟩ := hbd
  unfold SafetyRules.sign_proposal
  split_ifs <;> simp_all [WFResult, Ed25519Signature.WF, WF64]

theorem sign_timeout_result_WF (t : Timeout) (s : SafetyRules) (ht : t.WF) :
    WFResult Ed25519Signature.WF (SafetyRules.sign_timeout t s).1 := by
  obtain ⟨h1, h2⟩ := ht
  unfold SafetyRules.sign_timeout
  split_ifs <;> simp_all [WFResult, Ed25519Signature.WF, WF64]

theorem sign_timeout_with_qc_result_WF (t : TwoChainTimeout)
    (mtc : Option TwoChainTimeoutCertificate) (s : SafetyRules) (ht : t.WF) :
    WFResult Ed25519Signature.WF (SafetyRules.sign_timeout_with_qc t mtc s).1 := by
  obtain ⟨h1, h2, h3⟩ := ht
  unfold SafetyRules.sign_timeout_with_qc
  split_ifs <;> simp_all [WFResult, Ed25519Signature.WF, WF64]

theorem construct_and_sign_vote_two_chain_result_WF (vp : MaybeSignedVoteProposal)
    (mtc : Option TwoChainTimeoutCertificate) (s : SafetyRules) (hs : s.WF) (hvp : vp.WF) :
    WFResult Vote.WF (SafetyRules.construct_and_sign_vote_two_chain vp mtc s).1 := by
  obtain ⟨hs1, hs2, hs3, hs4⟩ := hs
  obtain ⟨hv1, hv2, hv3, hv4⟩ := hvp
  unfold SafetyRules.construct_and_sign_vote_two_chain
  split_ifs <;> simp_all [WFResult, Vote.WF, WF64]

theorem sign_commit_vote_result_WF (li : LedgerInfoWithSignatures) (nli : LedgerInfo)
    (s : SafetyRules) (hnli : nli.WF) :
    WFResult Ed25519Signature.WF (SafetyRules.sign_commit_vote li nli s).1 := by
  obtain ⟨h1, h2, h3⟩ := hnli
  unfold SafetyRules.sign_commit_vote
  split_ifs <;> simp_all [WFResult, Ed25519Signature.WF, WF64]

/-! ## Client and engine agree operation by operation -/

theorem client_consensus_state_eq (s : SafetyRules) (hs : s.WF) :
    SerializerClient.consensus_state s = s.consensus_state := by
  simp only [SerializerClient.consensus_state, SerializerClient.call, LocalService.request,
    SerializerService.handle_message,
    fromBytes_encodeInput SafetyRulesInput.ConsensusState trivial,
    SerializerService.dispatch,
    fromBytes_encodeResult encodeConsensusState decodeConsensusState
      decodeConsensusState_encode _ (consensus_state_result_WF s hs)]

theorem client_doInitialize_eq (proof : EpochChangeProof) (s : SafetyRules)
    (hp : proof.WF) :
    SerializerClient.doInitialize proof s = SafetyRules.doInitialize proof s := by
  simp only [SerializerClient.doInitialize, SerializerClient.call, LocalService.request,
    SerializerService.handle_message,
    fromBytes_encodeInput (SafetyRulesInput.Initialize proof) hp,
    SerializerService.dispatch,
    fromBytes_encodeResult encodeUnit decodeUnit (fun a r _ => decodeUnit_encode a r)
      _ (WFResult_true _)]

theorem client_construct_and_sign_vote_eq (vp : MaybeSignedVoteProposal) (s : SafetyRules)
    (hs : s.WF) (hvp : vp.WF) :
    SerializerClient.construct_and_sign_vote vp s =
      SafetyRules.construct_and_sign_vote vp s := by
  simp only [SerializerClient.construct_and_sign_vote, SerializerClient.call,
    LocalService.request, SerializerService.handle_message,
    fromBytes_encodeInput (SafetyRulesInput.ConstructAndSignVote vp) hvp,
    SerializerService.dispatch,
    fromBytes_encodeResult encodeVote decodeVote decodeVote_encode
      _ (construct_and_sign_vote_result_WF vp s hs hvp)]

theorem client_sign_proposal_eq (bd : BlockData) (s : SafetyRules) (hbd : bd.WF) :
    SerializerClient.sign_proposal bd s = SafetyRules.sign_proposal bd s := by
  simp only [SerializerClient.sign_proposal, SerializerClient.call, LocalService.request,
    SerializerService.handle_message,
    fromBytes_encodeInput (SafetyRulesInput.SignProposal bd) hbd,
    SerializerService.dispatch,
    fromBytes_encodeResult encodeSignature decodeSignature decodeSignature_encode
      _ (sign_proposal_result_WF bd s hbd)]

theorem client_sign_timeout_eq (t : Timeout) (s : SafetyRules) (ht : t.WF) :
    SerializerClient.sign_timeout t s = SafetyRules.sign_timeout t s := by
  simp only [SerializerClient.sign_timeout, SerializerClient.call, LocalService.request,
    SerializerService.handle_message,
    fromBytes_encodeInput (SafetyRulesInput.SignTimeout t) ht,
    SerializerService.dispatch,
    fromBytes_encodeResult encodeSignature decodeSignature decodeSignature_encode
      _ (sign_timeout_result_WF t s ht)]

theorem client_sign_timeout_with_qc_eq (t : TwoChainTimeout)
    (mtc : Option TwoChainTimeoutCertificate) (s : SafetyRules) (ht : t.WF)
    (hmtc : WFMaybeTC mtc) :
    SerializerClient.sign_timeout_with_qc t mtc s =
      SafetyRules.sign_timeout_with_qc t mtc s := by
  simp only [SerializerClient.sign_timeout_with_qc, SerializerClient.call,
    LocalService.request, SerializerService.handle_message,
    fromBytes_encodeInput (SafetyRulesInput.SignTimeoutWithQC t mtc) ⟨ht, hmtc⟩,
    SerializerService.dispatch,
    fromBytes_encodeResult encodeSignature decodeSignature decodeSignature_encode
      _ (sign_timeout_with_qc_result_WF t mtc s ht)]

theorem client_construct_and_sign_vote_two_chain_eq (vp : MaybeSignedVoteProposal)
    (mtc : Option TwoChainTimeoutCertificate) (s : SafetyRules) (hs : s.WF)
    (hvp : vp.WF) (hmtc : WFMaybeTC mtc) :
    SerializerClient.construct_and_sign_vote_two_chain vp mtc s =
      SafetyRules.construct_and_sign_vote_two_chain vp mtc s := by
  simp only [SerializerClient.construct_and_sign_vote_two_chain, SerializerClient.call,
    LocalService.request, SerializerService.handle_message,
    fromBytes_encodeInput (SafetyRulesInput.ConstructAndSignVoteTwoChain vp mtc) ⟨hvp, hmtc⟩,
    SerializerService.dispatch,
    fromBytes_encodeResult encodeVote decodeVote decodeVote_encode
      _ (construct_and_sign_vote_two_chain_result_WF vp mtc s hs hvp)]

theorem client_sign_commit_vote_eq (li : LedgerInfoWithSignatures) (nli : LedgerInfo)
    (s : SafetyRules) (hli : li.WF) (hnli : nli.WF) :
    SerializerClient.sign_commit_vote li nli s = SafetyRules.sign_commit_vote li nli s := by
  simp only [SerializerClient.sign_commit_vote, SerializerClient.call, LocalService.request,
    SerializerService.handle_message,
    fromBytes_encodeInput (SafetyRulesInput.SignCommitVote li nli) ⟨hli, hnli⟩,
    SerializerService.dispatch,
    fromBytes_encodeResult encodeSignature decodeSignature decodeSignature_encode
      _ (sign_commit_vote_result_WF li nli s hnli)]

theorem applyVoteReq_ok (q : VoteReq) (s : SafetyRules) (v : Vote)
    (h : (applyVoteReq q s).1 = Except.ok v) :
    s.last_voted_round < v.round ∧ v.epoch = s.epoch ∧
      (applyVoteReq q s).2.last_voted_round = v.round ∧
      (applyVoteReq q s).2.epoch = s.epoch := by
  cases q with
  | single vp =>
    simp only [applyVoteReq] at h ⊢
    unfold SafetyRules.construct_and_sign_vote at h ⊢
    split_ifs at h ⊢ <;> simp_all
    subst h
    simp_all
  | twoChain vp mtc =>
    simp only [applyVoteReq] at h ⊢
    unfold SafetyRules.construct_and_sign_vote_two_chain at h ⊢
    split_ifs at h ⊢ <;> simp_all
    subst h
    simp_all

theorem applyVoteReq_err (q : VoteReq) (s : SafetyRules) (e : Error)
    (h : (applyVoteReq q s).1 = Except.error e) :
    (applyVoteReq q s).2 = s := by
  cases q with
  | single vp =>
    simp only [applyVoteReq] at h ⊢
    unfold SafetyRules.construct_and_sign_vote at h ⊢
    split_ifs at h ⊢ <;> simp_all
  | twoChain vp mtc =>
    simp only [applyVoteReq] at h ⊢
    unfold SafetyRules.construct_and_sign_vote_two_chain at h ⊢
    split_ifs at h ⊢ <;> simp_all

theorem signedVotes_invariant (l : List VoteReq) :
    ∀ s : SafetyRules,
      (∀ v ∈ signedVotes l s, s.last_voted_round < v.round ∧ v.epoch = s.epoch) ∧
      List.Pairwise (fun a b => a.round < b.round) (signedVotes l s) := by
  induction l with
  | nil => intro s; simp [signedVotes, runVotes]
  | cons q qs ih =>
    intro s
    cases hr : (applyVoteReq q s).1 with
    | error e =>
      have hst := applyVoteReq_err q s e hr
      have hrw : signedVotes (q :: qs) s = signedVotes qs s := by
        simp [signedVotes, runVotes, hr, hst]
      rw [hrw]
      exact ih s
    | ok v =>
      obtain ⟨hlt, hep, hlvr, hepst⟩ := applyVoteReq_ok q s v hr
      have hrw : signedVotes (q :: qs) s = v :: signedVotes qs (applyVoteReq q s).2 := by
        simp [signedVotes, runVotes, hr]
      obtain ⟨hmem, hpw⟩ := ih (applyVoteReq q s).2
      rw [hrw]
      constructor
      · intro w hw
        rcases List.mem_cons.mp hw with hwv | hwrest
        · subst hwv; exact ⟨hlt, hep⟩
        · obtain ⟨hw1, hw2⟩ := hmem w hwrest
          constructor
          · omega
          · rw [hw2, hepst]
      · refine List.pairwise_cons.mpr ⟨?_, hpw⟩
        intro w hw
        have := (hmem w hw).1
        omega

theorem doInitialize_state (p : EpochChangeProof) (s : SafetyRules) :
    ((SafetyRules.doInitialize p s).2 = s ∧
      (SafetyRules.doInitialize p s).1 = Except.error Error.InvalidEpochChangeProof) ∨
    (s.epoch < (SafetyRules.doInitialize p s).2.epoch ∧
      (SafetyRules.doInitialize p s).1 = Except.ok ()) := by
  unfold SafetyRules.doInitialize
  split_ifs with h
  · right; exact ⟨h.2, rfl⟩
  · left; exact ⟨rfl, rfl⟩

theorem stepState_within_epoch (i : SafetyRulesInput) (s : SafetyRules) :
    ((stepState i s).epoch = s.epoch ∧
      s.last_voted_round ≤ (stepState i s).last_voted_round) ∨
    (s.epoch < (stepState i s).epoch ∧
      ∃ p, i = SafetyRulesInput.Initialize p ∧
        (SafetyRules.doInitialize p s).1 = Except.ok ()) := by
  cases i with
  | ConsensusState =>
    left
    simp only [stepState, SerializerService.dispatch]
    unfold SafetyRules.consensus_state
    split_ifs <;> simp
  | Initialize p =>
    rcases doInitialize_state p s with ⟨hst, _⟩ | ⟨hlt, hok⟩
    · left
      simp only [stepState, SerializerService.dispatch]
      rw [hst]
      simp
    · right
      exact ⟨hlt, p, rfl, hok⟩
  | ConstructAndSignVote vp =>
    left
    simp only [stepState, SerializerService.dispatch]
    unfold SafetyRules.construct_and_sign_vote
    split_ifs <;> simp_all <;> omega
  | SignProposal bd =>
    left
    simp only [stepState, SerializerService.dispatch]
    unfold SafetyRules.sign_proposal
    split_ifs <;> simp
  | SignTimeout t =>
    left
    simp only [stepState, SerializerService.dispatch]
    unfold SafetyRules.sign_timeout
    split_ifs <;> simp
  | SignTimeoutWithQC t mtc =>
    left
    simp only [stepState, SerializerService.dispatch]
    unfold SafetyRules.sign_timeout_with_qc
    split_ifs <;> simp
  | ConstructAndSignVoteTwoChain vp mtc =>
    left
    simp only [stepState, SerializerService.dispatch]
    unfold SafetyRules.construct_and_sign_vote_two_chain
    split_ifs <;> simp_all <;> omega
  | SignCommitVote li nli =>
    left
    simp only [stepState, SerializerService.dispatch]
    unfold SafetyRules.sign_commit_vote
    split_ifs <;> simp

theorem stepState_epoch_mono (i : SafetyRulesInput) (s : SafetyRules) :
    s.epoch ≤ (stepState i s).epoch := by
  rcases stepState_within_epoch i s with ⟨h, _⟩ | ⟨h, _⟩ <;> omega

theorem runInputs_epoch_mono (l : List SafetyRulesInput) :
    ∀ s : SafetyRules, s.epoch ≤ (runInputs l s).epoch := by
  induction l with
  | nil => intro s; simp [runInputs]
  | cons i rest ih =>
    intro s
    calc s.epoch ≤ (stepState i s).epoch := stepState_epoch_mono i s
      _ ≤ (runInputs rest (stepState i s)).epoch := ih (stepState i s)
      _ = (runInputs (i :: rest) s).epoch := rfl

theorem runInputs_lvr_mono (l : List SafetyRulesInput) :
    ∀ s : SafetyRules, (runInputs l s).epoch = s.epoch →
      s.last_voted_round ≤ (runInputs l s).last_voted_round := by
  induction l with
  | nil => intro s _; simp [runInputs]
  | cons i rest ih =>
    intro s hep
    rcases stepState_within_epoch i s with ⟨he, hl⟩ | ⟨hlt, _⟩
    · have hrest : (runInputs rest (stepState i s)).epoch = (stepState i s).epoch := by
        have : runInputs (i :: rest) s = runInputs rest (stepState i s) := rfl
        rw [this] at hep
        rw [hep, he]
      calc s.last_voted_round ≤ (stepState i s).last_voted_round := hl
        _ ≤ (runInputs rest (stepState i s)).last_voted_round := ih (stepState i s) hrest
        _ = (runInputs (i :: rest) s).last_voted_round := rfl
    · exfalso
      have hmono := runInputs_epoch_mono rest (stepState i s)
      have : runInputs (i :: rest) s = runInputs rest (stepState i s) := rfl
      rw [this] at hep
      omega

/-- C1: for every serially submitted sequence of vote requests (single- and
two-chain), the engine never returns two distinct signed votes for the same
round within the same epoch: any two votes it signs during the run that
agree on epoch and round are the same vote. -/
theorem no_equivocation_per_round (l : List VoteReq) (s : SafetyRules)
    (v1 v2 : Vote) (h1 : v1 ∈ signedVotes l s) (h2 : v2 ∈ signedVotes l s)
    (hep : v1.epoch = v2.epoch) (hrd : v1.round = v2.round) : v1 = v2 := by
  have hpw := (signedVotes_invariant l s).2
  have hne : List.Pairwise (fun a b : Vote => a.round ≠ b.round) (signedVotes l s) :=
    hpw.imp fun hlt => Nat.ne_of_lt hlt
  by_contra hneq
  exact absurd hrd (hne.forall (fun _ _ hab => Ne.symm hab) h1 h2 hneq)

/-- C1 witness: a concrete run from the spec's scenario state signs the
round-11 vote, and the theorem applies to it. -/
theorem no_equivocation_per_round_witness :
    sampleVote ∈ signedVotes [VoteReq.single sampleProposal] sampleState ∧
      sampleVote = sampleVote :=
  ⟨by decide,
    no_equivocation_per_round [VoteReq.single sampleProposal] sampleState
      sampleVote sampleVote (by decide) (by decide) rfl rfl⟩

/-- C2 (amended): on an initialized engine, `construct_and_sign_vote`
returns a signed vote iff the proposal's epoch matches, its round strictly
exceeds `last_voted_round` and its QC round is at least `preferred_round`;
on success the returned vote is for the proposal and the state advances
`preferred_round` to the max with the QC round, sets `last_voted_round` to
the proposal round and records the vote as `last_vote`; on failure the
state is unchanged and the error is `SafetyViolation` for a round or lock
violation but `IncorrectEpoch` for an epoch mismatch. -/
theorem construct_and_sign_vote_spec (s : SafetyRules) (vp : MaybeSignedVoteProposal)
    (hinit : s.initialized = true) :
    ((∃ v, (SafetyRules.construct_and_sign_vote vp s).1 = Except.ok v) ↔
      vp.epoch = s.epoch ∧ s.last_voted_round < vp.round ∧
        s.preferred_round ≤ vp.qc_round) ∧
    (∀ v, (SafetyRules.construct_and_sign_vote vp s).1 = Except.ok v →
      v = ⟨s.epoch, vp.round, vp.block_id⟩ ∧
      (SafetyRules.construct_and_sign_vote vp s).2 =
        { s with
          last_voted_round := vp.round
          preferred_round := max s.preferred_round vp.qc_round
          last_vote := some v }) ∧
    (∀ e, (SafetyRules.construct_and_sign_vote vp s).1 = Except.error e →
      (SafetyRules.construct_and_sign_vote vp s).2 = s ∧
        (e = Error.SafetyViolation ∨ e = Error.IncorrectEpoch)) ∧
    (vp.epoch ≠ s.epoch →
      (SafetyRules.construct_and_sign_vote vp s).1 = Except.error Error.IncorrectEpoch) ∧
    (vp.epoch = s.epoch →
      ¬ (s.last_voted_round < vp.round ∧ s.preferred_round ≤ vp.qc_round) →
      (SafetyRules.construct_and_sign_vote vp s).1 = Except.error Error.SafetyViolation) := by
  unfold SafetyRules.construct_and_sign_vote
  by_cases he : vp.epoch = s.epoch
  · by_cases hc : s.last_voted_round < vp.round ∧ s.preferred_round ≤ vp.qc_round
    · simp [hinit, he, hc]
    · simp [hinit, he, hc]
  · simp [hinit, he]

/-- C2 witness: the spec's scenario input satisfies the acceptance
conditions and the theorem's success characterization applies to it. -/
theorem construct_and_sign_vote_spec_witness :
    sampleState.initialized = true ∧
      ((∃ v, (SafetyRules.construct_and_sign_vote sampleProposal sampleState).1 =
          Except.ok v) ↔
        sampleProposal.epoch = sampleState.epoch ∧
          sampleState.last_voted_round < sampleProposal.round ∧
          sampleState.preferred_round ≤ sampleProposal.qc_round) :=
  ⟨rfl, (construct_and_sign_vote_spec sampleState sampleProposal rfl).1⟩

/-- C2 counterexample to the claim as stated: an epoch-mismatched proposal
is a violation, yet the engine rejects it with the incorrect-epoch error,
not the safety-violation error the claim names for every violation. -/
theorem construct_and_sign_vote_epoch_counterexample :
    (SafetyRules.construct_and_sign_vote wrongEpochProposal sampleState).1 =
      Except.error Error.IncorrectEpoch ∧
      Error.IncorrectEpoch ≠ Error.SafetyViolation :=
  ⟨rfl, by decide⟩

/-- C3: across any serial run of requests, `last_voted_round` never
decreases while the epoch is unchanged, and a single step can lower it
only by being a successful initialize that strictly advances the epoch. -/
theorem last_voted_round_monotone :
    (∀ (l : List SafetyRulesInput) (s : SafetyRules),
      (runInputs l s).epoch = s.epoch →
        s.last_voted_round ≤ (runInputs l s).last_voted_round) ∧
    (∀ (i : SafetyRulesInput) (s : SafetyRules),
      (stepState i s).last_voted_round < s.last_voted_round →
        s.epoch < (stepState i s).epoch ∧
          ∃ p, i = SafetyRulesInput.Initialize p ∧
            (SafetyRules.doInitialize p s).1 = Except.ok ()) := by
  constructor
  · exact fun l s hep => runInputs_lvr_mono l s hep
  · intro i s hlt
    rcases stepState_within_epoch i s with ⟨_, hmono⟩ | ⟨hep, hini⟩
    · omega
    · exact ⟨hep, hini⟩

/-- C3 witness: a concrete run (a successful vote then a timeout) keeps the
epoch at 5 and the theorem gives monotonicity of the last voted round. -/
theorem last_voted_round_monotone_witness :
    sampleState.last_voted_round ≤
      (runInputs [SafetyRulesInput.ConstructAndSignVote sampleProposal,
        SafetyRulesInput.SignTimeout ⟨5, 12⟩] sampleState).last_voted_round :=
  last_voted_round_monotone.1
    [SafetyRulesInput.ConstructAndSignVote sampleProposal,
      SafetyRulesInput.SignTimeout ⟨5, 12⟩] sampleState (by decide)

/-- C4: initialize with a proof whose target epoch does not strictly exceed
the current epoch fails with the invalid-epoch-change-proof error and
leaves the whole state, in particular epoch, last voted round and
preferred round, unchanged. -/
theorem doInitialize_no_epoch_advance (s : SafetyRules) (p : EpochChangeProof)
    (h : p.target_epoch ≤ s.epoch) :
    SafetyRules.doInitialize p s = (Except.error Error.InvalidEpochChangeProof, s) := by
  have hne : ¬ (p.valid = true ∧ s.epoch < p.target_epoch) := by
    rintro ⟨-, hlt⟩
    omega
  simp [SafetyRules.doInitialize, hne]

/-- C4 witness: a valid proof for the current epoch 5 is rejected and the
state is untouched. -/
theorem doInitialize_no_epoch_advance_witness :
    sampleProof.target_epoch ≤ sampleState.epoch ∧
      SafetyRules.doInitialize sampleProof sampleState =
        (Except.error Error.InvalidEpochChangeProof, sampleState) :=
  ⟨by decide, doInitialize_no_epoch_advance sampleState sampleProof (by decide)⟩

/-- C5: for each of the eight operations and every input, calling through
the serializer client over the in-process transport returns exactly the
engine's result and leaves the engine in exactly the engine's state. -/
theorem serializer_client_refines_engine (s : SafetyRules) (hs : s.WF) :
    SerializerClient.consensus_state s = s.consensus_state ∧
    (∀ p : EpochChangeProof, p.WF →
      SerializerClient.doInitialize p s = SafetyRules.doInitialize p s) ∧
    (∀ vp : MaybeSignedVoteProposal, vp.WF →
      SerializerClient.construct_and_sign_vote vp s =
        SafetyRules.construct_and_sign_vote vp s) ∧
    (∀ bd : BlockData, bd.WF →
      SerializerClient.sign_proposal bd s = SafetyRules.sign_proposal bd s) ∧
    (∀ t : Timeout, t.WF →
      SerializerClient.sign_timeout t s = SafetyRules.sign_timeout t s) ∧
    (∀ (t : TwoChainTimeout) (mtc : Option TwoChainTimeoutCertificate),
      t.WF → WFMaybeTC mtc →
      SerializerClient.sign_timeout_with_qc t mtc s =
        SafetyRules.sign_timeout_with_qc t mtc s) ∧
    (∀ (vp : MaybeSignedVoteProposal) (mtc : Option TwoChainTimeoutCertificate),
      vp.WF → WFMaybeTC mtc →
      SerializerClient.construct_and_sign_vote_two_chain vp mtc s =
        SafetyRules.construct_and_sign_vote_two_chain vp mtc s) ∧
    (∀ (li : LedgerInfoWithSignatures) (nli : LedgerInfo), li.WF → nli.WF →
      SerializerClient.sign_commit_vote li nli s = SafetyRules.sign_commit_vote li nli s) :=
  ⟨client_consensus_state_eq s hs,
    fun p hp => client_doInitialize_eq p s hp,
    fun vp hvp => client_construct_and_sign_vote_eq vp s hs hvp,
    fun bd hbd => client_sign_proposal_eq bd s hbd,
    fun t ht => client_sign_timeout_eq t s ht,
    fun t mtc ht hmtc => client_sign_timeout_with_qc_eq t mtc s ht hmtc,
    fun vp mtc hvp hmtc => client_construct_and_sign_vote_two_chain_eq vp mtc s hs hvp hmtc,
    fun li nli hli hnli => client_sign_commit_vote_eq li nli s hli hnli⟩

/-- C5 witness: the equivalence applies to the concrete scenario state; in
particular the client's consensus-state call equals the engine's. -/
theorem serializer_client_refines_engine_witness :
    sampleState.WF ∧
      SerializerClient.consensus_state sampleState = sampleState.consensus_state :=
  ⟨by decide, (serializer_client_refines_engine sampleState (by decide)).1⟩

/-- C6: the wire round-trip law: encoding any request variant and decoding
the bytes yields the same request, and encoding any typed result (success
value or error kind) and decoding it yields the original result, for every
result type of the protocol. -/
theorem wire_roundtrip_law :
    (∀ i : SafetyRulesInput, i.WF →
      fromBytes decodeInput (encodeInput i) = some i) ∧
    (∀ x : Except Error ConsensusState, WFResult ConsensusState.WF x →
      fromBytes (decodeResultWith decodeConsensusState)
        (encodeResultWith encodeConsensusState x) = some x) ∧
    (∀ x : Except Error Unit,
      fromBytes (decodeResultWith decodeUnit) (encodeResultWith encodeUnit x) = some x) ∧
    (∀ x : Except Error Vote, WFResult Vote.WF x →
      fromBytes (decodeResultWith decodeVote) (encodeResultWith encodeVote x) = some x) ∧
    (∀ x : Except Error Ed25519Signature, WFResult Ed25519Signature.WF x →
      fromBytes (decodeResultWith decodeSignature)
        (encodeResultWith encodeSignature x) = some x) := by
  refine ⟨fromBytes_encodeInput, ?_, ?_, ?_, ?_⟩
  · exact fun x h => fromBytes_encodeResult _ _ decodeConsensusState_encode x h
  · exact fun x =>
      fromBytes_encodeResult _ _ (fun a r _ => decodeUnit_encode a r) x (WFResult_true x)
  · exact fun x h => fromBytes_encodeResult _ _ decodeVote_encode x h
  · exact fun x h => fromBytes_encodeResult _ _ decodeSignature_encode x h

/-- C6 witness: the round trip holds on a concrete vote request. -/
theorem wire_roundtrip_law_witness :
    (SafetyRulesInput.ConstructAndSignVote sampleProposal).WF ∧
      fromBytes decodeInput
        (encodeInput (SafetyRulesInput.ConstructAndSignVote sampleProposal)) =
        some (SafetyRulesInput.ConstructAndSignVote sampleProposal) :=
  ⟨by decide, wire_roundtrip_law.1 _ (by decide)⟩

/-- C7: `handle_message` on bytes encoding any request variant dispatches
to exactly the engine method named by the variant's tag with exactly the
variant's arguments (including the presence or absence of the optional
timeout certificate) and returns the encoding of that method's typed
result. -/
theorem handle_message_dispatches (s : SafetyRules) :
    (SerializerService.handle_message s (encodeInput SafetyRulesInput.ConsensusState) =
      (Except.ok (encodeResultWith encodeConsensusState (s.consensus_state).1),
        (s.consensus_state).2)) ∧
    (∀ p : EpochChangeProof, p.WF →
      SerializerService.handle_message s (encodeInput (SafetyRulesInput.Initialize p)) =
        (Except.ok (encodeResultWith encodeUnit (SafetyRules.doInitialize p s).1),
          (SafetyRules.doInitialize p s).2)) ∧
    (∀ vp : MaybeSignedVoteProposal, vp.WF →
      SerializerService.handle_message s
          (encodeInput (SafetyRulesInput.ConstructAndSignVote vp)) =
        (Except.ok (encodeResultWith encodeVote
            (SafetyRules.construct_and_sign_vote vp s).1),
          (SafetyRules.construct_and_sign_vote vp s).2)) ∧
    (∀ bd : BlockData, bd.WF →
      SerializerService.handle_message s
          (encodeInput (SafetyRulesInput.SignProposal bd)) =
        (Except.ok (encodeResultWith encodeSignature (SafetyRules.sign_proposal bd s).1),
          (SafetyRules.sign_proposal bd s).2)) ∧
    (∀ t : Timeout, t.WF →
      SerializerService.handle_message s (encodeInput (SafetyRulesInput.SignTimeout t)) =
        (Except.ok (encodeResultWith encodeSignature (SafetyRules.sign_timeout t s).1),
          (SafetyRules.sign_timeout t s).2)) ∧
    (∀ (t : TwoChainTimeout) (mtc : Option TwoChainTimeoutCertificate),
      t.WF → WFMaybeTC mtc →
      SerializerService.handle_message s
          (encodeInput (SafetyRulesInput.SignTimeoutWithQC t mtc)) =
        (Except.ok (encodeResultWith encodeSignature
            (SafetyRules.sign_timeout_with_qc t mtc s).1),
          (SafetyRules.sign_timeout_with_qc t mtc s).2)) ∧
    (∀ (vp : MaybeSignedVoteProposal) (mtc : Option TwoChainTimeoutCertificate),
      vp.WF → WFMaybeTC mtc →
      SerializerService.handle_message s
          (encodeInput (SafetyRulesInput.ConstructAndSignVoteTwoChain vp mtc)) =
        (Except.ok (encodeResultWith encodeVote
            (SafetyRules.construct_and_sign_vote_two_chain vp mtc s).1),
          (SafetyRules.construct_and_sign_vote_two_chain vp mtc s).2)) ∧
    (∀ (li : LedgerInfoWithSignatures) (nli : LedgerInfo), li.WF → nli.WF →
      SerializerService.handle_message s
          (encodeInput (SafetyRulesInput.SignCommitVote li nli)) =
        (Except.ok (encodeResultWith encodeSignature
            (SafetyRules.sign_commit_vote li nli s).1),
          (SafetyRules.sign_commit_vote li nli s).2)) := by
  refine ⟨?_, ?_, ?_, ?_, ?_, ?_, ?_, ?_⟩
  · simp [SerializerService.handle_message,
      fromBytes_encodeInput SafetyRulesInput.ConsensusState trivial,
      SerializerService.dispatch]
  · intro p hp
    simp [SerializerService.handle_message,
      fromBytes_encodeInput (SafetyRulesInput.Initialize p) hp,
      SerializerService.dispatch]
  · intro vp hvp
    simp [SerializerService.handle_message,
      fromBytes_encodeInput (SafetyRulesInput.ConstructAndSignVote vp) hvp,
      SerializerService.dispatch]
  · intro bd hbd
    simp [SerializerService.handle_message,
      fromBytes_encodeInput (SafetyRulesInput.SignProposal bd) hbd,
      SerializerService.dispatch]
  · intro t ht
    simp [SerializerService.handle_message,
      fromBytes_encodeInput (SafetyRulesInput.SignTimeout t) ht,
      SerializerService.dispatch]
  · intro t mtc ht hmtc
    simp [SerializerService.handle_message,
      fromBytes_encodeInput (SafetyRulesInput.SignTimeoutWithQC t mtc) ⟨ht, hmtc⟩,
      SerializerService.dispatch]
  · intro vp mtc hvp hmtc
    simp [SerializerService.handle_message,
      fromBytes_encodeInput (SafetyRulesInput.ConstructAndSignVoteTwoChain vp mtc) ⟨hvp, hmtc⟩,
      SerializerService.dispatch]
  · intro li nli hli hnli
    simp [SerializerService.handle_message,
      fromBytes_encodeInput (SafetyRulesInput.SignCommitVote li nli) ⟨hli, hnli⟩,
      SerializerService.dispatch]

/-- C7 witness: the dispatch law applies to a concrete initialize request
against the scenario state. -/
theorem handle_message_dispatches_witness :
    sampleProof.WF ∧
      SerializerService.handle_message sampleState
          (encodeInput (SafetyRulesInput.Initialize sampleProof)) =
        (Except.ok (encodeResultWith encodeUnit
            (SafetyRules.doInitialize sampleProof sampleState).1),
          (SafetyRules.doInitialize sampleProof sampleState).2) :=
  ⟨by decide, (handle_message_dispatches sampleState).2.1 sampleProof (by decide)⟩

/-- C8: bytes that do not decode to a request make `handle_message` return
the serialization error and leave the engine state untouched, with no
engine operation dispatched. -/
theorem handle_message_malformed (s : SafetyRules) (bs : List Nat)
    (h : fromBytes decodeInput bs = none) :
    SerializerService.handle_message s bs = (Except.error Error.SerializationError, s) := by
  simp [SerializerService.handle_message, h]

/-- C8 witness: the byte 99 is no valid variant tag, and the call fails
with the serialization error leaving the scenario state unchanged. -/
theorem handle_message_malformed_witness :
    fromBytes decodeInput [99] = none ∧
      SerializerService.handle_message sampleState [99] =
        (Except.error Error.SerializationError, sampleState) :=
  ⟨by decide, handle_message_malformed sampleState [99] (by decide)⟩

/-- C10: `handle_message` returns an outer error exactly when the request
bytes fail to decode; on every well-formed encoded request the outer
result is success carrying the dispatch payload, inside which an engine
error travels as the encoded typed result. -/
theorem handle_message_error_boundary :
    (∀ (s : SafetyRules) (bs : List Nat),
      (∃ e, (SerializerService.handle_message s bs).1 = Except.error e) ↔
        fromBytes decodeInput bs = none) ∧
    (∀ (s : SafetyRules) (i : SafetyRulesInput), i.WF →
      SerializerService.handle_message s (encodeInput i) =
        (Except.ok (SerializerService.dispatch i s).1,
          (SerializerService.dispatch i s).2)) := by
  constructor
  · intro s bs
    cases hdec : fromBytes decodeInput bs with
    | none => simp [SerializerService.handle_message, hdec]
    | some i => simp [SerializerService.handle_message, hdec]
  · intro s i hi
    simp [SerializerService.handle_message, fromBytes_encodeInput i hi]

/-- C10 witness: a concrete request whose engine result is an error (an
initialize that does not advance the epoch) still comes back as an outer
success carrying the dispatch payload. -/
theorem handle_message_error_boundary_witness :
    (SafetyRulesInput.Initialize sampleProof).WF ∧
      SerializerService.handle_message sampleState
          (encodeInput (SafetyRulesInput.Initialize sampleProof)) =
        (Except.ok (SerializerService.dispatch
            (SafetyRulesInput.Initialize sampleProof) sampleState).1,
          (SerializerService.dispatch
            (SafetyRulesInput.Initialize sampleProof) sampleState).2) :=
  ⟨by decide,
    handle_message_error_boundary.2 sampleState
      (SafetyRulesInput.Initialize sampleProof) (by decide)⟩

end Dijets

